import Mathlib

/-
Verification of the tag-decision and changelog-generation core of the
action-autotag project (source: src/main.ts).

The TypeScript source is shallowly embedded below.  Strings are modelled by
Lean String (a packed List Char); every remote API interaction is modelled by
an oracle value of type Except String _ holding the response the host would
have produced (ok) or the error it would have thrown (error), and the
functions additionally report the list of remote calls they perform, so that
"no network request is made" is a provable statement.
-/

namespace Autotag

/-- One element of the list returned by the listTags API call.  Only the
name field is consulted by the core logic. -/
structure Tag where
  name : String
  deriving DecidableEq

/-- One commit of the compareCommits response: commit.sha,
commit.commit.message and the optional commit.author.login
(absent when the commit has no linked author account). -/
structure Commit where
  sha : String
  message : String
  authorLogin : Option String
  deriving DecidableEq

/-- The remote calls the action can issue, in the order the source makes
them: repos.listTags, repos.compareCommits, git.createTag, git.createRef. -/
inductive ApiCall where
  | listTags
  | compareCommits
  | createTag
  | createRef
  deriving DecidableEq

/-- stripTok pat s returns some r when s = pat ++ r, and none otherwise.
Helper used to model the literal token alternatives of the global regex
in formatCommit. -/
def stripTok : List Char → List Char → Option (List Char)
  | [], s => some s
  | _ :: _, [] => none
  | p :: pt, ch :: rest => if ch = p then stripTok pt rest else none

/-- The literal characters of the first regex alternative. -/
def tokMessage : List Char :=
  ['{', '{', 'm', 'e', 's', 's', 'a', 'g', 'e', '}', '}']

/-- The literal characters of the second regex alternative. -/
def tokMessageHeadline : List Char :=
  ['{', '{', 'm', 'e', 's', 's', 'a', 'g', 'e', 'H', 'e', 'a', 'd', 'l',
   'i', 'n', 'e', '}', '}']

/-- The literal characters of the third regex alternative. -/
def tokAuthor : List Char :=
  ['{', '{', 'a', 'u', 't', 'h', 'o', 'r', '}', '}']

/-- The literal characters of the fourth regex alternative. -/
def tokSha : List Char :=
  ['{', '{', 's', 'h', 'a', '}', '}']

/-- Model of message.split("\n")[0]: the characters of the message up to,
and not including, the first newline. -/
def firstLine : List Char → List Char
  | [] => []
  | ch :: rest => if ch = '\n' then [] else ch :: firstLine rest

/-- Single left-to-right scan of String.prototype.replace with the global
regex of formatCommit: at each position the four literal alternatives are
tried in the order of the pattern; on a match the replacement value is
emitted verbatim (it is not rescanned) and scanning resumes after the match;
otherwise the character is copied and scanning advances by one.  The Nat
argument is fuel, always instantiated with the length of the list (each step
consumes at least one character, so the fuel never runs out). -/
def fmtGoF (c : Commit) : Nat → List Char → List Char
  | _, [] => []
  | 0, s => s
  | fuel + 1, ch :: rest =>
    match stripTok tokMessage (ch :: rest) with
    | some r => c.message.data ++ fmtGoF c fuel r
    | none =>
      match stripTok tokMessageHeadline (ch :: rest) with
      | some r => firstLine c.message.data ++ fmtGoF c fuel r
      | none =>
        match stripTok tokAuthor (ch :: rest) with
        | some r => (c.authorLogin.getD "").data ++ fmtGoF c fuel r
        | none =>
          match stripTok tokSha (ch :: rest) with
          | some r => c.sha.data ++ fmtGoF c fuel r
          | none => ch :: fmtGoF c fuel rest

/-- The scan of fmtGoF at its intended fuel. -/
def fmtGo (c : Commit) (s : List Char) : List Char :=
  fmtGoF c s.length s

/-- Model of formatCommit(commit, structure): structure.replace(regex, ...)
with the four capture-group replacements of the source. -/
def formatCommit (c : Commit) (structure' : String) : String :=
  String.mk (fmtGo c structure'.data)

/-- Model of tagExists(tags, tagName): tags.some(tag => tag.name === tagName). -/
def tagExists (tags : List Tag) (tagName : String) : Bool :=
  tags.any fun t => t.name == tagName

/-- Model of Array.prototype.join("\n"): elements separated by a single
newline, empty string for the empty list, no trailing separator. -/
def joinNl : List String → String
  | [] => ""
  | [s] => s
  | s :: rest => s ++ "\n" ++ joinNl rest

/-- The pure part of generateChangelog:
comparison.data.commits.map(commit => formatCommit(commit, structure)).join("\n"). -/
def changelogText (commits : List Commit) (structure' : String) : String :=
  joinNl (commits.map fun c => formatCommit c structure')

/-- Model of generateChangelog(github, owner, repo, baseTag, headRef,
structure).  The compareCommits network call is the oracle argument cmp; a
thrown comparison error propagates unchanged. -/
def generateChangelog (cmp : Except String (List Commit))
    (structure' : String) : Except String String :=
  match cmp with
  | Except.error e => Except.error e
  | Except.ok commits => Except.ok (changelogText commits structure')

/-- Model of getTagMessage(github, owner, repo, providedMessage,
existingTags, changelogStructure, version).  In the source the changelog is
generated from base = existingTags[0].name and head = "main"; that single
network call is the oracle cmp.  The second component is the list of remote
calls performed.  The try/catch of the source is the Except.error branch:
the failure is logged as a warning and never rethrown, so the model is a
total function. -/
def getTagMessage (providedMessage : String) (existingTags : List Tag)
    (cmp : Except String (List Commit))
    (changelogStructure version : String) : String × List ApiCall :=
  if providedMessage ≠ "" then (providedMessage, [])
  else if existingTags.length = 0 then ("Version " ++ version, [])
  else
    match generateChangelog cmp changelogStructure with
    | Except.ok changelog =>
      (if changelog = "" then "Version " ++ version else changelog,
       [ApiCall.compareCommits])
    | Except.error _ => ("Version " ++ version, [ApiCall.compareCommits])

/-- JavaScript a || b on strings: the empty string is falsy. -/
def orFalsy (a b : String) : String :=
  if a ≠ "" then a else b

/-- Model of String.prototype.trim(): whitespace removed from both ends. -/
def jsTrim (s : String) : String :=
  String.mk (((s.data.dropWhile Char.isWhitespace).reverse.dropWhile
    Char.isWhitespace).reverse)

/-- The process environment consulted by getEnvironmentVariables; a missing
variable is modelled as the empty string, which JavaScript treats exactly
like an unset one here (both are falsy). -/
structure ProcEnv where
  githubToken : String
  inputGithubToken : String
  githubWorkspace : String
  githubSha : String
  deriving DecidableEq

/-- Model of getEnvironmentVariables(): GITHUB_TOKEN || INPUT_GITHUB_TOKEN,
GITHUB_WORKSPACE and GITHUB_SHA, throwing on a falsy result. -/
def getEnvironmentVariables (env : ProcEnv) :
    Except String (String × String × String) :=
  let token := orFalsy env.githubToken env.inputGithubToken
  if token = "" then Except.error "GITHUB_TOKEN is required"
  else if env.githubWorkspace = "" then Except.error "GITHUB_WORKSPACE is not set"
  else if env.githubSha = "" then Except.error "GITHUB_SHA is not set"
  else Except.ok (token, env.githubWorkspace, env.githubSha)

/-- The raw values of core.getInput for the five inputs (empty string when
the input is not supplied, as in the actions toolkit). -/
structure RawInputs where
  packageRoot : String
  tagPrefix : String
  tagSuffix : String
  tagMessage : String
  changelogStructure : String
  deriving DecidableEq

/-- The record produced by getActionInputs(). -/
structure ActionInputs where
  packageRoot : String
  tagPrefix : String
  tagSuffix : String
  tagMessage : String
  changelogStructure : String
  deriving DecidableEq

/-- Model of getActionInputs(): defaults applied with ||, tag_message
trimmed, default changelog structure "**\x7b\x7bmessage\x7d\x7d** \x7b\x7bsha\x7d\x7d)\n". -/
def getActionInputs (raw : RawInputs) : ActionInputs :=
  { packageRoot := orFalsy raw.packageRoot "./"
    tagPrefix := orFalsy raw.tagPrefix ""
    tagSuffix := orFalsy raw.tagSuffix ""
    tagMessage := jsTrim raw.tagMessage
    changelogStructure :=
      orFalsy raw.changelogStructure
        "**\x7b\x7bmessage\x7d\x7d** \x7b\x7bsha\x7d\x7d)\n" }

/-- The response of git.createTag: response.data.tag and response.data.sha. -/
structure CreatedTag where
  tag : String
  sha : String
  deriving DecidableEq

/-- The response of git.createRef: response.data.ref and response.data.url. -/
structure RefData where
  ref : String
  url : String
  deriving DecidableEq

/-- The oracle for the four remote calls of one invocation: each field holds
the outcome the host produces when (and if) the corresponding call is made. -/
structure Api where
  listTags : Except String (List Tag)
  compareCommits : Except String (List Commit)
  createTag : Except String CreatedTag
  createRef : Except String RefData

/-- Model of fetchExistingTags(github, owner, repo): the listTags call with
its try/catch that recovers a thrown error into the empty list. -/
def fetchExistingTags (api : Api) : List Tag :=
  match api.listTags with
  | Except.ok tags => tags
  | Except.error _ => []

/-- Model of createGitTag(...): the git.createTag call; on success the
function returns response.data.sha. -/
def createGitTag (api : Api) : Except String String :=
  match api.createTag with
  | Except.error e => Except.error e
  | Except.ok created => Except.ok created.sha

/-- Model of createGitReference(...): the git.createRef call issued with
ref = "refs/tags/" ++ tagName; on success it returns ref and url. -/
def createGitReference (api : Api) : Except String RefData :=
  api.createRef

/-- The five keys written by setActionOutputs. -/
structure ActionOutputs where
  tagname : String
  tagsha : String
  taguri : String
  tagmessage : String
  tagref : String
  deriving DecidableEq

/-- The defaults of setActionOutputs: every key the empty string. -/
def emptyOutputs : ActionOutputs :=
  { tagname := "", tagsha := "", taguri := "", tagmessage := "", tagref := "" }

/-- The effects of one createVersionTag() invocation: err is the propagated
exception (none on normal return), versionOutput is the value given to
core.setOutput("version", ...) when reached, outputs is the five-key record
given to setActionOutputs when reached, calls is the remote call trace. -/
structure VTResult where
  err : Option String
  versionOutput : Option String
  outputs : Option ActionOutputs
  calls : List ApiCall
  deriving DecidableEq

/-- Model of createVersionTag().  The pubspec argument is the oracle for
loadPubspec(workspace, inputs.packageRoot): the version string it returns,
or the configuration error it throws (missing file, missing or non-string
version field). -/
def createVersionTag (env : ProcEnv) (raw : RawInputs)
    (pubspec : Except String String) (api : Api) : VTResult :=
  match getEnvironmentVariables env with
  | Except.error e => ⟨some e, none, none, []⟩
  | Except.ok _ =>
    let inputs := getActionInputs raw
    match pubspec with
    | Except.error e => ⟨some e, none, none, []⟩
    | Except.ok version =>
      let existingTags := fetchExistingTags api
      let tagName := inputs.tagPrefix ++ version ++ inputs.tagSuffix
      if tagExists existingTags tagName then
        ⟨none, some version, some emptyOutputs, [ApiCall.listTags]⟩
      else
        let m := getTagMessage inputs.tagMessage existingTags
          api.compareCommits inputs.changelogStructure version
        match createGitTag api with
        | Except.error e =>
          ⟨some e, some version, none,
           ApiCall.listTags :: m.2 ++ [ApiCall.createTag]⟩
        | Except.ok tagSha =>
          match createGitReference api with
          | Except.error e =>
            ⟨some e, some version, none,
             ApiCall.listTags :: m.2 ++ [ApiCall.createTag, ApiCall.createRef]⟩
          | Except.ok reference =>
            ⟨none, some version,
             some { tagname := tagName, tagsha := tagSha,
                    taguri := reference.url, tagmessage := m.1,
                    tagref := reference.ref },
             ApiCall.listTags :: m.2 ++ [ApiCall.createTag, ApiCall.createRef]⟩

/-- The observable outcome of run(): failed is the message given to
core.setFailed (none on success), versionOutput the published version
output, outputs the five-key record finally in effect, calls the trace. -/
structure Outcome where
  failed : Option String
  versionOutput : Option String
  outputs : ActionOutputs
  calls : List ApiCall
  deriving DecidableEq

/-- Model of run(): createVersionTag with the top-level catch that calls
core.setFailed(message) and setActionOutputs(\x7b\x7d), resetting the five keys
to their empty defaults (the version output, already published, remains). -/
def run (env : ProcEnv) (raw : RawInputs) (pubspec : Except String String)
    (api : Api) : Outcome :=
  let r := createVersionTag env raw pubspec api
  match r.err with
  | some e =>
    { failed := some e, versionOutput := r.versionOutput,
      outputs := emptyOutputs, calls := r.calls }
  | none =>
    { failed := none, versionOutput := r.versionOutput,
      outputs := r.outputs.getD emptyOutputs, calls := r.calls }

/-- Substring test used to state facts about diagnostic messages: strContains
s sub is true when sub occurs contiguously inside s. -/
def strContains (s sub : String) : Bool :=
  (List.range (s.length + 1)).any fun i => (stripTok sub.data (s.data.drop i)).isSome

/-- The four token patterns, as an enumeration for generic statements. -/
inductive Tok where
  | message
  | messageHeadline
  | author
  | sha
  deriving DecidableEq

/-- The literal characters of each token. -/
def tokStr : Tok → List Char
  | Tok.message => tokMessage
  | Tok.messageHeadline => tokMessageHeadline
  | Tok.author => tokAuthor
  | Tok.sha => tokSha

/-- The replacement value of each token, per the source: the full message,
the message up to the first newline, commit.author?.login ?? "", the sha. -/
def tokVal (c : Commit) : Tok → List Char
  | Tok.message => c.message.data
  | Tok.messageHeadline => firstLine c.message.data
  | Tok.author => (c.authorLogin.getD "").data
  | Tok.sha => c.sha.data

/-- A scan position matches one of the four alternatives. -/
def hasTokenAt (s : List Char) : Bool :=
  (stripTok tokMessage s).isSome || (stripTok tokMessageHeadline s).isSome ||
  (stripTok tokAuthor s).isSome || (stripTok tokSha s).isSome

/-- No position of the list starts a recognized token. -/
def tokenFree : List Char → Bool
  | [] => true
  | ch :: rest => !hasTokenAt (ch :: rest) && tokenFree rest

theorem stripTok_eq_some (p : List Char) :
    ∀ s r, stripTok p s = some r ↔ s = p ++ r := by
  induction p with
  | nil =>
    intro s r
    simp [stripTok]
  | cons a pt ih =>
    intro s r
    cases s with
    | nil => simp [stripTok]
    | cons b st =>
      by_cases hb : b = a
      · subst hb
        simp [stripTok, ih]
      · simp [stripTok, hb]

theorem stripTok_self (p u : List Char) : stripTok p (p ++ u) = some u := by
  rw [stripTok_eq_some]

theorem fmtGoF_nil (c : Commit) (f : Nat) : fmtGoF c f [] = [] := by
  cases f <;> rfl

theorem fmtGoF_fuel (c : Commit) :
    ∀ f₁ f₂ s, s.length ≤ f₁ → s.length ≤ f₂ → fmtGoF c f₁ s = fmtGoF c f₂ s := by
  intro f₁
  induction f₁ with
  | zero =>
    intro f₂ s h1 _
    have : s = [] := by
      cases s with
      | nil => rfl
      | cons a t => simp at h1
    subst this
    rw [fmtGoF_nil, fmtGoF_nil]
  | succ g₁ ih =>
    intro f₂ s h1 h2
    cases s with
    | nil => rw [fmtGoF_nil, fmtGoF_nil]
    | cons ch rest =>
      cases f₂ with
      | zero => simp at h2
      | succ g₂ =>
        simp only [fmtGoF]
        have hlen : rest.length + 1 ≤ g₁ + 1 := by simpa using h1
        have hlen2 : rest.length + 1 ≤ g₂ + 1 := by simpa using h2
        cases hm : stripTok tokMessage (ch :: rest) with
        | some r =>
          have hr : (ch :: rest).length = tokMessage.length + r.length := by
            rw [(stripTok_eq_some _ _ _).mp hm]
            simp
          have hb : r.length ≤ g₁ ∧ r.length ≤ g₂ := by
            simp [tokMessage] at hr
            omega
          dsimp only
          rw [ih g₂ r hb.1 hb.2]
        | none =>
          cases hh : stripTok tokMessageHeadline (ch :: rest) with
          | some r =>
            have hr : (ch :: rest).length = tokMessageHeadline.length + r.length := by
              rw [(stripTok_eq_some _ _ _).mp hh]
              simp
            have hb : r.length ≤ g₁ ∧ r.length ≤ g₂ := by
              simp [tokMessageHeadline] at hr
              omega
            dsimp only
            rw [ih g₂ r hb.1 hb.2]
          | none =>
            cases ha : stripTok tokAuthor (ch :: rest) with
            | some r =>
              have hr : (ch :: rest).length = tokAuthor.length + r.length := by
                rw [(stripTok_eq_some _ _ _).mp ha]
                simp
              have hb : r.length ≤ g₁ ∧ r.length ≤ g₂ := by
                simp [tokAuthor] at hr
                omega
              dsimp only
              rw [ih g₂ r hb.1 hb.2]
            | none =>
              cases hs : stripTok tokSha (ch :: rest) with
              | some r =>
                have hr : (ch :: rest).length = tokSha.length + r.length := by
                  rw [(stripTok_eq_some _ _ _).mp hs]
                  simp
                have hb : r.length ≤ g₁ ∧ r.length ≤ g₂ := by
                  simp [tokSha] at hr
                  omega
                dsimp only
                rw [ih g₂ r hb.1 hb.2]
              | none =>
                have hb : rest.length ≤ g₁ ∧ rest.length ≤ g₂ := by omega
                dsimp only
                rw [ih g₂ rest hb.1 hb.2]

theorem fmtGoF_message (c : Commit) (f : Nat) (post : List Char) :
    fmtGoF c (f + 11) (tokMessage ++ post) = c.message.data ++ fmtGoF c (f + 10) post := rfl

theorem fmtGoF_messageHeadline (c : Commit) (f : Nat) (post : List Char) :
    fmtGoF c (f + 19) (tokMessageHeadline ++ post)
      = firstLine c.message.data ++ fmtGoF c (f + 18) post := rfl

theorem fmtGoF_author (c : Commit) (f : Nat) (post : List Char) :
    fmtGoF c (f + 10) (tokAuthor ++ post)
      = (c.authorLogin.getD "").data ++ fmtGoF c (f + 9) post := rfl

theorem fmtGoF_sha (c : Commit) (f : Nat) (post : List Char) :
    fmtGoF c (f + 7) (tokSha ++ post) = c.sha.data ++ fmtGoF c (f + 6) post := rfl

theorem fmtGo_token (c : Commit) (T : Tok) (post : List Char) :
    fmtGo c (tokStr T ++ post) = tokVal c T ++ fmtGo c post := by
  cases T
  case message =>
    have hl : (tokStr Tok.message ++ post).length = post.length + 11 := by
      simp [tokStr, tokMessage]
    rw [fmtGo, hl]
    rw [show (tokStr Tok.message ++ post) = tokMessage ++ post from rfl]
    rw [fmtGoF_message]
    rw [fmtGoF_fuel c (post.length + 10) post.length post (by omega) (by omega)]
    rfl
  case messageHeadline =>
    have hl : (tokStr Tok.messageHeadline ++ post).length = post.length + 19 := by
      simp [tokStr, tokMessageHeadline]
    rw [fmtGo, hl]
    rw [show (tokStr Tok.messageHeadline ++ post) = tokMessageHeadline ++ post from rfl]
    rw [fmtGoF_messageHeadline]
    rw [fmtGoF_fuel c (post.length + 18) post.length post (by omega) (by omega)]
    rfl
  case author =>
    have hl : (tokStr Tok.author ++ post).length = post.length + 10 := by
      simp [tokStr, tokAuthor]
    rw [fmtGo, hl]
    rw [show (tokStr Tok.author ++ post) = tokAuthor ++ post from rfl]
    rw [fmtGoF_author]
    rw [fmtGoF_fuel c (post.length + 9) post.length post (by omega) (by omega)]
    rfl
  case sha =>
    have hl : (tokStr Tok.sha ++ post).length = post.length + 7 := by
      simp [tokStr, tokSha]
    rw [fmtGo, hl]
    rw [show (tokStr Tok.sha ++ post) = tokSha ++ post from rfl]
    rw [fmtGoF_sha]
    rw [fmtGoF_fuel c (post.length + 6) post.length post (by omega) (by omega)]
    rfl

theorem fmtGo_cons_no_token (c : Commit) (ch : Char) (rest : List Char)
    (h : hasTokenAt (ch :: rest) = false) :
    fmtGo c (ch :: rest) = ch :: fmtGo c rest := by
  have hm : stripTok tokMessage (ch :: rest) = none := by
    cases hx : stripTok tokMessage (ch :: rest) with
    | none => rfl
    | some r => rw [hasTokenAt, hx] at h; simp at h
  have hh : stripTok tokMessageHeadline (ch :: rest) = none := by
    cases hx : stripTok tokMessageHeadline (ch :: rest) with
    | none => rfl
    | some r => rw [hasTokenAt, hx] at h; simp at h
  have ha : stripTok tokAuthor (ch :: rest) = none := by
    cases hx : stripTok tokAuthor (ch :: rest) with
    | none => rfl
    | some r => rw [hasTokenAt, hx] at h; simp at h
  have hs : stripTok tokSha (ch :: rest) = none := by
    cases hx : stripTok tokSha (ch :: rest) with
    | none => rfl
    | some r => rw [hasTokenAt, hx] at h; simp at h
  show fmtGoF c (ch :: rest).length (ch :: rest) = ch :: fmtGo c rest
  rw [List.length_cons]
  simp only [fmtGoF, hm, hh, ha, hs]
  rfl

theorem fmtGo_tokenFree (c : Commit) :
    ∀ s, tokenFree s = true → fmtGo c s = s := by
  intro s
  induction s with
  | nil => intro _; rfl
  | cons ch rest ih =>
    intro h
    rw [tokenFree] at h
    have h1 : hasTokenAt (ch :: rest) = false := by
      cases hx : hasTokenAt (ch :: rest) with
      | false => rfl
      | true => rw [hx] at h; simp at h
    have h2 : tokenFree rest = true := by
      cases hx : tokenFree rest with
      | true => rfl
      | false => rw [hx] at h; simp at h
    rw [fmtGo_cons_no_token c ch rest h1, ih h2]

/-- remBlocks r means: matching the pattern remainder r against any text that
starts with two opening braces fails within those two characters (so a token
match that ran out of template text inside a token-free part can never be
completed by an appended token). -/
def remBlocks : List Char → Bool
  | [] => false
  | [c1] => c1 != '{'
  | c1 :: c2 :: _ => (c1 != '{') || (c2 != '{')

theorem remBlocks_blocks (r : List Char) (h : remBlocks r = true) :
    ∀ w, stripTok r ('{' :: '{' :: w) = none := by
  intro w
  match r with
  | [] => simp [remBlocks] at h
  | [c1] =>
    have hc : ¬('{' = c1) := by
      simp [remBlocks] at h
      exact fun he => h he.symm
    simp [stripTok, hc]
  | c1 :: c2 :: t =>
    by_cases hc1 : '{' = c1
    · have hc2 : ¬('{' = c2) := by
        simp [remBlocks, ← hc1] at h
        exact fun he => h he.symm
      simp [stripTok, hc1, hc2]
    · simp [stripTok, hc1]

/-- Every proper non-empty suffix of each of the four tokens blocks: a token
occurrence can never straddle the boundary between a token-free prefix and a
following token.  A finite check over the four concrete patterns. -/
theorem tok_suffix_remBlocks :
    (∀ k, k < tokMessage.length → 0 < k → remBlocks (tokMessage.drop k) = true) ∧
    (∀ k, k < tokMessageHeadline.length → 0 < k →
      remBlocks (tokMessageHeadline.drop k) = true) ∧
    (∀ k, k < tokAuthor.length → 0 < k → remBlocks (tokAuthor.drop k) = true) ∧
    (∀ k, k < tokSha.length → 0 < k → remBlocks (tokSha.drop k) = true) := by
  refine ⟨?_, ?_, ?_, ?_⟩ <;> · intro k hk; revert k; decide

theorem tokStr_remBlocks (T : Tok) :
    ∀ k, 0 < k → (tokStr T).drop k ≠ [] → remBlocks ((tokStr T).drop k) = true := by
  intro k hk hne
  have hlt : k < (tokStr T).length := by
    by_contra hge
    exact hne (List.drop_eq_nil_of_le (by omega))
  cases T
  case message => exact tok_suffix_remBlocks.1 k hlt hk
  case messageHeadline => exact tok_suffix_remBlocks.2.1 k hlt hk
  case author => exact tok_suffix_remBlocks.2.2.1 k hlt hk
  case sha => exact tok_suffix_remBlocks.2.2.2 k hlt hk

theorem stripTok_none_extend :
    ∀ (p s : List Char), stripTok p s = none → s ≠ [] →
      (∀ k, 0 < k → p.drop k ≠ [] → remBlocks (p.drop k) = true) →
      ∀ w, stripTok p (s ++ '{' :: '{' :: w) = none := by
  intro p
  induction p with
  | nil =>
    intro s h
    simp [stripTok] at h
  | cons a pt ih =>
    intro s h hne hp w
    cases s with
    | nil => exact absurd rfl hne
    | cons b st =>
      by_cases hb : b = a
      · subst hb
        rw [stripTok] at h
        rw [if_pos rfl] at h
        rw [List.cons_append, stripTok, if_pos rfl]
        cases st with
        | nil =>
          have hpt : pt ≠ [] := by
            intro he
            subst he
            simp [stripTok] at h
          have h3 := hp 1 (by omega)
          rw [List.drop_succ_cons, List.drop_zero] at h3
          exact remBlocks_blocks pt (h3 hpt) w
        | cons b2 st2 =>
          refine ih (b2 :: st2) h (by simp) ?_ w
          intro k hk hne2
          have h3 := hp (k + 1) (by omega)
          rw [List.drop_succ_cons] at h3
          exact h3 hne2
      · rw [List.cons_append, stripTok]
        rw [if_neg hb]

/-- tokStr T ++ u always starts with two opening braces. -/
theorem tokStr_append_braces (T : Tok) (u : List Char) :
    ∃ w, tokStr T ++ u = '{' :: '{' :: w := by
  cases T
  case message => exact ⟨_, rfl⟩
  case messageHeadline => exact ⟨_, rfl⟩
  case author => exact ⟨_, rfl⟩
  case sha => exact ⟨_, rfl⟩

theorem hasTokenAt_extend (s : List Char) (hne : s ≠ [])
    (h : hasTokenAt s = false) (T : Tok) (u : List Char) :
    hasTokenAt (s ++ (tokStr T ++ u)) = false := by
  obtain ⟨w, hw⟩ := tokStr_append_braces T u
  rw [hw]
  have hm : stripTok tokMessage s = none := by
    cases hx : stripTok tokMessage s with
    | none => rfl
    | some r => rw [hasTokenAt, hx] at h; simp at h
  have hh : stripTok tokMessageHeadline s = none := by
    cases hx : stripTok tokMessageHeadline s with
    | none => rfl
    | some r => rw [hasTokenAt, hx] at h; simp at h
  have ha : stripTok tokAuthor s = none := by
    cases hx : stripTok tokAuthor s with
    | none => rfl
    | some r => rw [hasTokenAt, hx] at h; simp at h
  have hs : stripTok tokSha s = none := by
    cases hx : stripTok tokSha s with
    | none => rfl
    | some r => rw [hasTokenAt, hx] at h; simp at h
  rw [hasTokenAt]
  rw [stripTok_none_extend tokMessage s hm hne (tokStr_remBlocks Tok.message) w]
  rw [stripTok_none_extend tokMessageHeadline s hh hne
    (tokStr_remBlocks Tok.messageHeadline) w]
  rw [stripTok_none_extend tokAuthor s ha hne (tokStr_remBlocks Tok.author) w]
  rw [stripTok_none_extend tokSha s hs hne (tokStr_remBlocks Tok.sha) w]
  rfl

/-- The template decomposes around a token occurrence: a token-free prefix is
copied byte for byte, the token is replaced by its value, and scanning
continues after it. -/
theorem fmtGo_decomp (c : Commit) (T : Tok) :
    ∀ pre post, tokenFree pre = true →
      fmtGo c (pre ++ (tokStr T ++ post)) = pre ++ (tokVal c T ++ fmtGo c post) := by
  intro pre
  induction pre with
  | nil =>
    intro post _
    rw [List.nil_append, List.nil_append]
    exact fmtGo_token c T post
  | cons ch pre' ih =>
    intro post h
    rw [tokenFree] at h
    have h1 : hasTokenAt (ch :: pre') = false := by
      cases hx : hasTokenAt (ch :: pre') with
      | false => rfl
      | true => rw [hx] at h; simp at h
    have h2 : tokenFree pre' = true := by
      cases hx : tokenFree pre' with
      | true => rfl
      | false => rw [hx] at h; simp at h
    have hext : hasTokenAt ((ch :: pre') ++ (tokStr T ++ post)) = false :=
      hasTokenAt_extend (ch :: pre') (by simp) h1 T post
    rw [List.cons_append] at hext ⊢
    rw [fmtGo_cons_no_token c ch (pre' ++ (tokStr T ++ post)) hext]
    rw [ih post h2]
    rfl

/-- firstLine agrees with takeWhile (not a newline): the text up to, and not
including, the first newline. -/
theorem firstLine_eq_takeWhile :
    ∀ m : List Char, firstLine m = m.takeWhile (fun ch => ch != '\n') := by
  intro m
  induction m with
  | nil => rfl
  | cons ch rest ih =>
    by_cases hc : ch = '\n'
    · subst hc
      simp [firstLine, List.takeWhile_cons]
    · simp [firstLine, hc, List.takeWhile_cons, ih]

theorem fmtGo_nil (c : Commit) : fmtGo c [] = [] := rfl

theorem fmtGo_tokMessage (c : Commit) : fmtGo c tokMessage = c.message.data := by
  have h1 := fmtGo_token c Tok.message []
  simp only [tokStr, tokVal] at h1
  simpa [fmtGo_nil] using h1

theorem fmtGo_tokMessageHeadline (c : Commit) :
    fmtGo c tokMessageHeadline = firstLine c.message.data := by
  have h1 := fmtGo_token c Tok.messageHeadline []
  simp only [tokStr, tokVal] at h1
  simpa [fmtGo_nil] using h1

theorem fmtGo_tokAuthor (c : Commit) :
    fmtGo c tokAuthor = (c.authorLogin.getD "").data := by
  have h1 := fmtGo_token c Tok.author []
  simp only [tokStr, tokVal] at h1
  simpa [fmtGo_nil] using h1

theorem fmtGo_tokSha (c : Commit) : fmtGo c tokSha = c.sha.data := by
  have h1 := fmtGo_token c Tok.sha []
  simp only [tokStr, tokVal] at h1
  simpa [fmtGo_nil] using h1

theorem version_fallback_ne (v : String) : ("Version " ++ v) ≠ "" := by
  intro h
  have h2 := congrArg String.length h
  rw [String.length_append] at h2
  have h8 : ("Version " : String).length = 8 := rfl
  have h0 : ("" : String).length = 0 := rfl
  rw [h8, h0] at h2
  omega

/-- C1: the Tag Message Resolver (getTagMessage) always returns a non-empty
string, for every explicit message, existing-tag list, template and
non-empty version.  When the Changelog Generator fails it falls back to
"Version " ++ version (the model is a total function, so the error branch
never raises), and when changelog generation succeeds with an empty string
it likewise falls back to "Version " ++ version. -/
theorem getTagMessage_always_nonempty (msg tpl version : String)
    (tags : List Tag) (cmp : Except String (List Commit)) (hv : version ≠ "") :
    (getTagMessage msg tags cmp tpl version).1 ≠ "" ∧
    (msg = "" → tags ≠ [] →
      (∀ e, getTagMessage msg tags (Except.error e) tpl version
          = ("Version " ++ version, [ApiCall.compareCommits])) ∧
      (∀ commits, changelogText commits tpl = "" →
        getTagMessage msg tags (Except.ok commits) tpl version
          = ("Version " ++ version, [ApiCall.compareCommits]))) := by
  constructor
  · rw [getTagMessage]
    by_cases hm : msg = ""
    · rw [if_neg (fun hh => hh hm)]
      by_cases ht : tags.length = 0
      · rw [if_pos ht]
        exact version_fallback_ne version
      · rw [if_neg ht]
        cases cmp with
        | error e =>
          dsimp only [generateChangelog]
          exact version_fallback_ne version
        | ok commits =>
          dsimp only [generateChangelog]
          by_cases hc : changelogText commits tpl = ""
          · rw [if_pos hc]
            exact version_fallback_ne version
          · rw [if_neg hc]
            exact hc
    · rw [if_pos hm]
      exact hm
  · intro hme hts
    subst hme
    have ht : ¬(tags.length = 0) := by
      intro h0
      exact hts (List.length_eq_zero.mp h0)
    constructor
    · intro e
      rw [getTagMessage, if_neg (fun hh => hh rfl), if_neg ht]
      rfl
    · intro commits hc
      rw [getTagMessage, if_neg (fun hh => hh rfl), if_neg ht]
      dsimp only [generateChangelog]
      rw [if_pos hc]

/-- Witness for C1 at a concrete input with a failing changelog generation. -/
theorem getTagMessage_always_nonempty_witness :
    ("1.0.0" : String) ≠ "" ∧
    ((getTagMessage "" [⟨"v0.9.0"⟩] (Except.error "network down") "tpl" "1.0.0").1 ≠ "" ∧
    ("" = "" → ([⟨"v0.9.0"⟩] : List Tag) ≠ [] →
      (∀ e, getTagMessage "" [⟨"v0.9.0"⟩] (Except.error e) "tpl" "1.0.0"
          = ("Version " ++ "1.0.0", [ApiCall.compareCommits])) ∧
      (∀ commits, changelogText commits "tpl" = "" →
        getTagMessage "" [⟨"v0.9.0"⟩] (Except.ok commits) "tpl" "1.0.0"
          = ("Version " ++ "1.0.0", [ApiCall.compareCommits])))) :=
  ⟨by decide,
   getTagMessage_always_nonempty "" "tpl" "1.0.0" [⟨"v0.9.0"⟩]
     (Except.error "network down") (by decide)⟩

/-- C4: an explicit message that is non-empty after trimming is returned
verbatim by getTagMessage and the Changelog Generator is never invoked (the
remote call trace is empty). -/
theorem getTagMessage_explicit_verbatim (msg tpl version : String)
    (tags : List Tag) (cmp : Except String (List Commit)) (h : jsTrim msg ≠ "") :
    getTagMessage msg tags cmp tpl version = (msg, []) := by
  have hm : msg ≠ "" := by
    intro he
    subst he
    exact h (by decide)
  rw [getTagMessage, if_pos hm]

/-- Witness for C4 at a concrete input. -/
theorem getTagMessage_explicit_verbatim_witness :
    jsTrim "hello" ≠ "" ∧
    getTagMessage "hello" [⟨"v1.0.0"⟩] (Except.error "boom") "tpl" "2.0.0"
      = ("hello", []) :=
  ⟨by decide,
   getTagMessage_explicit_verbatim "hello" "tpl" "2.0.0" [⟨"v1.0.0"⟩]
     (Except.error "boom") (by decide)⟩

/-- C5: with no explicit message and an empty existing-tag list,
getTagMessage returns exactly "Version " ++ version and makes no remote
call, for every template, version and comparison oracle. -/
theorem getTagMessage_no_tags_default (tpl version : String)
    (cmp : Except String (List Commit)) :
    getTagMessage "" [] cmp tpl version = ("Version " ++ version, []) := rfl

/-- C6: the Template Formatter substitutes exactly the four recognized
tokens: a token-free template (which includes any unrecognized token-like
text) is returned byte-identical with no substitution and no error, and
around a recognized token occurrence the token-free prefix is copied
byte for byte while the token is replaced by its value. -/
theorem formatCommit_exact_substitution (c : Commit) (tpl : String) (T : Tok)
    (pre post : List Char) (hfree : tokenFree tpl.data = true)
    (hpre : tokenFree pre = true) :
    formatCommit c tpl = tpl ∧
    fmtGo c (pre ++ (tokStr T ++ post)) = pre ++ (tokVal c T ++ fmtGo c post) := by
  constructor
  · rw [formatCommit, fmtGo_tokenFree c tpl.data hfree]
  · exact fmtGo_decomp c T pre post hpre

/-- Witness for C6: an unrecognized token stays literal and a sha token
after a token-free prefix is substituted. -/
theorem formatCommit_exact_substitution_witness :
    tokenFree (String.mk ['a', ' ', '{', '{', 'v', 'e', 'r', 's', 'i', 'o', 'n', '}', '}']).data = true ∧
    tokenFree ['x', ' '] = true ∧
    (formatCommit ⟨"abc", "m", some "al"⟩
        (String.mk ['a', ' ', '{', '{', 'v', 'e', 'r', 's', 'i', 'o', 'n', '}', '}'])
      = String.mk ['a', ' ', '{', '{', 'v', 'e', 'r', 's', 'i', 'o', 'n', '}', '}'] ∧
    fmtGo ⟨"abc", "m", some "al"⟩ (['x', ' '] ++ (tokStr Tok.sha ++ ['!']))
      = ['x', ' '] ++ (tokVal ⟨"abc", "m", some "al"⟩ Tok.sha ++
          fmtGo ⟨"abc", "m", some "al"⟩ ['!'])) :=
  ⟨by decide, by decide,
   formatCommit_exact_substitution ⟨"abc", "m", some "al"⟩
     (String.mk ['a', ' ', '{', '{', 'v', 'e', 'r', 's', 'i', 'o', 'n', '}', '}'])
     Tok.sha ['x', ' '] ['!'] (by decide) (by decide)⟩

/-- C7: substituting the messageHeadline token yields the commit message up
to, and not including, the first newline; on the example message the result
is "fix: bug"; substituting the author token yields the empty string when
the commit has no linked author account. -/
theorem formatCommit_headline_and_missing_author (c c2 : Commit)
    (hc2 : c2.authorLogin = none) :
    formatCommit c (String.mk tokMessageHeadline)
      = String.mk (c.message.data.takeWhile (fun ch => ch != '\n')) ∧
    formatCommit ⟨"sha1", "fix: bug\n\nDetails here", none⟩
      (String.mk tokMessageHeadline) = "fix: bug" ∧
    formatCommit c2 (String.mk tokAuthor) = "" := by
  refine ⟨?_, by decide, ?_⟩
  · rw [formatCommit]
    rw [show (String.mk tokMessageHeadline).data = tokMessageHeadline from rfl]
    rw [fmtGo_tokMessageHeadline, firstLine_eq_takeWhile]
  · rw [formatCommit]
    rw [show (String.mk tokAuthor).data = tokAuthor from rfl]
    rw [fmtGo_tokAuthor, hc2]
    rfl

/-- Witness for C7 at a commit with a multi-line message and no author. -/
theorem formatCommit_headline_and_missing_author_witness :
    (⟨"s2", "a\nb", none⟩ : Commit).authorLogin = none ∧
    (formatCommit ⟨"s9", "x\ny", some "who"⟩ (String.mk tokMessageHeadline)
      = String.mk (("x\ny" : String).data.takeWhile (fun ch => ch != '\n')) ∧
    formatCommit ⟨"sha1", "fix: bug\n\nDetails here", none⟩
      (String.mk tokMessageHeadline) = "fix: bug" ∧
    formatCommit ⟨"s2", "a\nb", none⟩ (String.mk tokAuthor) = "") :=
  ⟨rfl,
   formatCommit_headline_and_missing_author ⟨"s9", "x\ny", some "who"⟩
     ⟨"s2", "a\nb", none⟩ rfl⟩

/-- C8: tagExists is a pure, exact, case-sensitive membership test: it is
true exactly when some fetched tag name equals the candidate, and the two
concrete checks show exact match and case sensitivity. -/
theorem tagExists_exact_membership :
    (∀ (tags : List Tag) (name : String),
      tagExists tags name = true ↔ ∃ t, t ∈ tags ∧ t.name = name) ∧
    tagExists [⟨"v1.0.0"⟩] "v1.0.0" = true ∧
    tagExists [⟨"v1.0.0"⟩] "V1.0.0" = false := by
  refine ⟨?_, by decide, by decide⟩
  intro tags name
  rw [tagExists, List.any_eq_true]
  constructor
  · rintro ⟨t, ht, he⟩
    exact ⟨t, ht, by simpa using he⟩
  · rintro ⟨t, ht, he⟩
    exact ⟨t, ht, by simp [he]⟩

/-- C9: the Changelog Generator maps each returned commit through the
Template Formatter with the same template, in the returned order, and joins
the results with single newline separators and no trailing separator. -/
theorem generateChangelog_map_join (tpl : String) (c c2 : Commit)
    (cs commits : List Commit) :
    changelogText [] tpl = "" ∧
    changelogText [c] tpl = formatCommit c tpl ∧
    changelogText (c :: c2 :: cs) tpl
      = formatCommit c tpl ++ "\n" ++ changelogText (c2 :: cs) tpl ∧
    generateChangelog (Except.ok commits) tpl
      = Except.ok (changelogText commits tpl) :=
  ⟨rfl, rfl, rfl, rfl⟩

/-- C10: template substitution is single-pass: the replacement values are
emitted verbatim, so token text occurring inside a substituted value stays
literal in the output, for every commit. -/
theorem formatCommit_single_pass (c : Commit) :
    formatCommit c (String.mk tokMessage) = c.message ∧
    formatCommit c (String.mk tokSha) = c.sha ∧
    formatCommit c (String.mk tokAuthor) = c.authorLogin.getD "" ∧
    formatCommit ⟨"deadbeef", "see \x7b\x7bsha\x7d\x7d here", none⟩
      (String.mk tokMessage) = "see \x7b\x7bsha\x7d\x7d here" := by
  refine ⟨?_, ?_, ?_, by decide⟩
  · rw [formatCommit]
    rw [show (String.mk tokMessage).data = tokMessage from rfl, fmtGo_tokMessage]
  · rw [formatCommit]
    rw [show (String.mk tokSha).data = tokSha from rfl, fmtGo_tokSha]
  · rw [formatCommit]
    rw [show (String.mk tokAuthor).data = tokAuthor from rfl, fmtGo_tokAuthor]

/-- C3: when the candidate tag name (prefix ++ version ++ suffix) is already
present in the fetched existing-tag list, the tagname output is the empty
string (all five outputs keep their empty defaults), the only remote call
made is the tag listing (no tag creation and no reference creation), and
the invocation completes without fatal error. -/
theorem run_tag_exists_noop (env : ProcEnv) (raw : RawInputs) (api : Api)
    (evs : String × String × String) (version : String)
    (h1 : getEnvironmentVariables env = Except.ok evs)
    (h2 : tagExists (fetchExistingTags api)
        ((getActionInputs raw).tagPrefix ++ version ++
          (getActionInputs raw).tagSuffix) = true) :
    run env raw (Except.ok version) api =
      { failed := none, versionOutput := some version, outputs := emptyOutputs,
        calls := [ApiCall.listTags] } := by
  simp [run, createVersionTag, h1, h2]

/-- Witness for C3 at a concrete invocation whose candidate tag v1.2.3 is
already among the fetched tags. -/
theorem run_tag_exists_noop_witness :
    getEnvironmentVariables ⟨"tok", "", "/ws", "headsha"⟩
      = Except.ok ("tok", "/ws", "headsha") ∧
    tagExists
        (fetchExistingTags
          ⟨Except.ok [⟨"v1.2.3"⟩], Except.ok [], Except.error "x", Except.error "y"⟩)
        ((getActionInputs ⟨"", "v", "", "", ""⟩).tagPrefix ++ "1.2.3" ++
          (getActionInputs ⟨"", "v", "", "", ""⟩).tagSuffix) = true ∧
    run ⟨"tok", "", "/ws", "headsha"⟩ ⟨"", "v", "", "", ""⟩ (Except.ok "1.2.3")
        ⟨Except.ok [⟨"v1.2.3"⟩], Except.ok [], Except.error "x", Except.error "y"⟩
      = { failed := none, versionOutput := some "1.2.3", outputs := emptyOutputs,
          calls := [ApiCall.listTags] } :=
  ⟨rfl, rfl,
   run_tag_exists_noop ⟨"tok", "", "/ws", "headsha"⟩ ⟨"", "v", "", "", ""⟩
     ⟨Except.ok [⟨"v1.2.3"⟩], Except.ok [], Except.error "x", Except.error "y"⟩
     ("tok", "/ws", "headsha") "1.2.3" rfl rfl⟩

/-- C2 counterexample: in a run where the reference creation fails after the
annotated tag object v1.2.3 with identity tagobjsha42 was created, the
failure surfaced by run is the raw reference-creation error, which contains
neither the orphaned tag object sha nor the tag name, refuting the claim
that the diagnostic includes the orphaned tag object identity. -/
theorem run_ref_failure_diag_counterexample :
    (run ⟨"tok", "", "/ws", "headsha"⟩ ⟨"", "v", "", "", ""⟩ (Except.ok "1.2.3")
        ⟨Except.ok [], Except.ok [], Except.ok ⟨"v1.2.3", "tagobjsha42"⟩,
          Except.error "Reference update failed"⟩).failed
      = some "Reference update failed" ∧
    strContains "Reference update failed" "tagobjsha42" = false ∧
    strContains "Reference update failed" "v1.2.3" = false :=
  ⟨rfl, by decide, by decide⟩

/-- C2 (amended): when reference creation fails after the tag object was
created, the invocation fails fatally, the tag object is not rolled back
(the call trace ends with createTag and createRef and contains no further
mutation), and the surfaced error is exactly the reference-creation error
message, without the orphaned tag object identity. -/
theorem run_ref_creation_failure (env : ProcEnv) (raw : RawInputs) (api : Api)
    (evs : String × String × String) (version : String) (created : CreatedTag)
    (e : String)
    (h1 : getEnvironmentVariables env = Except.ok evs)
    (h2 : tagExists (fetchExistingTags api)
        ((getActionInputs raw).tagPrefix ++ version ++
          (getActionInputs raw).tagSuffix) = false)
    (h3 : api.createTag = Except.ok created)
    (h4 : api.createRef = Except.error e) :
    run env raw (Except.ok version) api =
      { failed := some e, versionOutput := some version, outputs := emptyOutputs,
        calls := ApiCall.listTags ::
          (getTagMessage (getActionInputs raw).tagMessage (fetchExistingTags api)
              api.compareCommits (getActionInputs raw).changelogStructure version).2
            ++ [ApiCall.createTag, ApiCall.createRef] } := by
  simp [run, createVersionTag, createGitTag, createGitReference, h1, h2, h3, h4]

/-- Witness for C2 (amended) at a concrete invocation. -/
theorem run_ref_creation_failure_witness :
    getEnvironmentVariables ⟨"tok", "", "/ws", "headsha"⟩
      = Except.ok ("tok", "/ws", "headsha") ∧
    tagExists
        (fetchExistingTags
          ⟨Except.ok [], Except.ok [], Except.ok ⟨"v1.2.3", "tagobjsha42"⟩,
            Except.error "boom"⟩)
        ((getActionInputs ⟨"", "v", "", "", ""⟩).tagPrefix ++ "1.2.3" ++
          (getActionInputs ⟨"", "v", "", "", ""⟩).tagSuffix) = false ∧
    (⟨Except.ok [], Except.ok [], Except.ok ⟨"v1.2.3", "tagobjsha42"⟩,
        Except.error "boom"⟩ : Api).createTag
      = Except.ok ⟨"v1.2.3", "tagobjsha42"⟩ ∧
    (⟨Except.ok [], Except.ok [], Except.ok ⟨"v1.2.3", "tagobjsha42"⟩,
        Except.error "boom"⟩ : Api).createRef = Except.error "boom" ∧
    run ⟨"tok", "", "/ws", "headsha"⟩ ⟨"", "v", "", "", ""⟩ (Except.ok "1.2.3")
        ⟨Except.ok [], Except.ok [], Except.ok ⟨"v1.2.3", "tagobjsha42"⟩,
          Except.error "boom"⟩
      = { failed := some "boom", versionOutput := some "1.2.3",
          outputs := emptyOutputs,
          calls := ApiCall.listTags ::
            (getTagMessage (getActionInputs ⟨"", "v", "", "", ""⟩).tagMessage
                (fetchExistingTags
                  ⟨Except.ok [], Except.ok [], Except.ok ⟨"v1.2.3", "tagobjsha42"⟩,
                    Except.error "boom"⟩)
                (⟨Except.ok [], Except.ok [], Except.ok ⟨"v1.2.3", "tagobjsha42"⟩,
                    Except.error "boom"⟩ : Api).compareCommits
                (getActionInputs ⟨"", "v", "", "", ""⟩).changelogStructure
                "1.2.3").2
              ++ [ApiCall.createTag, ApiCall.createRef] } :=
  ⟨rfl, rfl, rfl, rfl,
   run_ref_creation_failure ⟨"tok", "", "/ws", "headsha"⟩ ⟨"", "v", "", "", ""⟩
     ⟨Except.ok [], Except.ok [], Except.ok ⟨"v1.2.3", "tagobjsha42"⟩,
       Except.error "boom"⟩
     ("tok", "/ws", "headsha") "1.2.3" ⟨"v1.2.3", "tagobjsha42"⟩ "boom"
     rfl rfl rfl rfl⟩

end Autotag
